import Mathlib

/-!
Verification of the subnet allocator of garden-linux (`net_fence/subnets`).

The repository ships only the test file `net_fence/subnets/subnets_test.go`
for this package; the implementation `subnets.go` is absent from the source
tree. The manager, its allocation table and the CIDR arithmetic are therefore
modelled from the specification (spec.md §3, §4.A–§4.D, §7), faithful to the
spec's words and to the behaviour the reference tests demand of the public
API `New`, `Capacity`, `AllocateDynamically`, `AllocateStatically`,
`Recover`, `Release`.

Addresses are 32-bit IPv4 values represented as `Nat` (big-endian integer
form, as the spec prescribes); a subnet is a base address paired with a
prefix length.
-/

namespace Subnets

/-- Modelled from the spec: a Subnet is an IPv4 CIDR, "a value with two
observable fields: its base address (a 32-bit network-order integer, with
host bits zeroed) and its prefix length (0–32). Equality is structural."
(`subnets.go` is absent from the source tree.) -/
structure Subnet where
  addr : Nat
  prefixLen : Nat
deriving DecidableEq, Repr

/-- Number of addresses a subnet carries: `2^(32 - prefix)`. -/
def hostSize (s : Subnet) : Nat := 2 ^ (32 - s.prefixLen)

/-- Modelled from the spec: `network_address(subnet)`: base with host bits
masked to zero. -/
def networkAddress (s : Subnet) : Nat := s.addr / hostSize s * hostSize s

/-- Modelled from the spec: `broadcast_address(subnet)`: network with all
host bits set. -/
def broadcastAddress (s : Subnet) : Nat := networkAddress s + (hostSize s - 1)

/-- Modelled from the spec: `contains(subnet, ip)`: ip's high `prefix` bits
equal the subnet's. -/
def containsIP (s : Subnet) (ip : Nat) : Bool :=
  ip / hostSize s == s.addr / hostSize s

/-- Modelled from the spec: `overlaps(s1, s2)`:
`contains(s1, network_address(s2)) || contains(s2, network_address(s1))`. -/
def overlaps (s1 s2 : Subnet) : Bool :=
  containsIP s1 (networkAddress s2) || containsIP s2 (networkAddress s1)

/-- A subnet `s` lies wholly within `pool`: `s` is at least as narrow and its
network address lies in `pool`. Used for the spec's up-front
"static-inside-pool" rejection rule (spec.md §9). -/
def subnetWithin (pool s : Subnet) : Bool :=
  decide (pool.prefixLen ≤ s.prefixLen) && containsIP pool (networkAddress s)

/-- Modelled from the spec: `capacity()` computes `2^(30 - p)` if `p ≤ 30`,
else 0; a pure function of the DynamicPool. -/
def capacity (pool : Subnet) : Nat :=
  if pool.prefixLen ≤ 30 then 2 ^ (30 - pool.prefixLen) else 0

/-- Modelled from the spec: `iter_slash30(pool)`: the sequence of /30 subnets
inside `pool`, in ascending numeric order, length = `Capacity`. -/
def iterSlash30 (pool : Subnet) : List Subnet :=
  (List.range (capacity pool)).map (fun i => ⟨networkAddress pool + 4 * i, 30⟩)

/-- Replace a subnet by its canonical form: base address masked down to the
network address (what `net.ParseCIDR` hands the manager). -/
def normalize (s : Subnet) : Subnet := ⟨networkAddress s, s.prefixLen⟩

/-- Modelled from the spec: the error kinds of §7 surfaced by the manager. -/
inductive AllocError where
  | ErrAlreadyAllocated
  | ErrInsufficientSubnets
  | ErrReleasedUnallocatedNetwork
deriving DecidableEq, Repr

/-- Modelled from the spec: the manager's guarded state — the immutable
DynamicPool and the allocation table, here the list of live subnet keys
(the claims under verification are all at subnet granularity). -/
structure Manager where
  pool : Subnet
  table : List Subnet
deriving DecidableEq, Repr

/-- Does `s` overlap any live subnet of the table? (spec.md §4.C step 2:
"Check overlap against every live subnet".) -/
def overlapsAny (table : List Subnet) (s : Subnet) : Bool :=
  table.any (fun t => overlaps t s)

/-- Modelled from the spec: `Manager.new(pool)` — a fresh manager with an
empty allocation table. -/
def New (pool : Subnet) : Manager := ⟨pool, []⟩

/-- Modelled from the spec: `Manager.capacity()`, a pure function of the
DynamicPool. -/
def Capacity (m : Manager) : Nat := capacity m.pool

/-- Modelled from the spec: `AllocateStatically(s)` =
`allocate(Static(s), Dynamic)`. Any static subnet wholly within the
DynamicPool is rejected up front with `ErrAlreadyAllocated` (spec.md §9);
any overlap with a live subnet is `ErrAlreadyAllocated` (§4.C step 2);
otherwise the entry is inserted. -/
def AllocateStatically (m : Manager) (s : Subnet) : Except AllocError Manager :=
  let n := normalize s
  if subnetWithin m.pool n then
    .error .ErrAlreadyAllocated
  else if overlapsAny m.table n then
    .error .ErrAlreadyAllocated
  else
    .ok ⟨m.pool, n :: m.table⟩

/-- Modelled from the spec: `AllocateDynamically()` =
`allocate(Dynamic, Dynamic)`: walk `iter_slash30(pool)` in order, skipping
any subnet that conflicts with a live entry ("a dynamic allocation never
selects a /30 that overlaps any static entry"); if none remains, fail
`ErrInsufficientSubnets`. -/
def AllocateDynamically (m : Manager) : Except AllocError (Subnet × Manager) :=
  match (iterSlash30 m.pool).find? (fun c => !(overlapsAny m.table c)) with
  | none => .error .ErrInsufficientSubnets
  | some c => .ok (c, ⟨m.pool, c :: m.table⟩)

/-- Modelled from the spec: `recover(s)` — a non-allocating insert with the
same conflict check as a static allocation but without the allocation
policy (no inside-pool rejection): any overlap with a live subnet, in
particular a second recovery of the same subnet, fails
`ErrAlreadyAllocated`. -/
def Recover (m : Manager) (s : Subnet) : Except AllocError Manager :=
  let n := normalize s
  if overlapsAny m.table n then
    .error .ErrAlreadyAllocated
  else
    .ok ⟨m.pool, n :: m.table⟩

/-- Modelled from the spec: `release(s)`: if the subnet key is absent, fail
`ErrReleasedUnallocatedNetwork`; else drop the entry. -/
def Release (m : Manager) (s : Subnet) : Except AllocError Manager :=
  let n := normalize s
  if m.table.contains n then
    .ok ⟨m.pool, m.table.erase n⟩
  else
    .error .ErrReleasedUnallocatedNetwork

/-- One operation of the manager's public mutating API. -/
inductive Op where
  | allocDyn : Op
  | allocStatic : Subnet → Op
  | recoverOp : Subnet → Op
  | releaseOp : Subnet → Op
deriving DecidableEq, Repr

/-- Apply one operation; a failed operation leaves the state unchanged
(errors are surfaced as return values, spec.md §7). -/
def step (m : Manager) : Op → Manager
  | .allocDyn =>
    match AllocateDynamically m with
    | .ok (_, m') => m'
    | .error _ => m
  | .allocStatic s =>
    match AllocateStatically m s with
    | .ok m' => m'
    | .error _ => m
  | .recoverOp s =>
    match Recover m s with
    | .ok m' => m'
    | .error _ => m
  | .releaseOp s =>
    match Release m s with
    | .ok m' => m'
    | .error _ => m

/-- Run a sequence of operations from a state. -/
def runOps (m : Manager) (ops : List Op) : Manager := ops.foldl step m

/-- The non-overlap invariant of the allocation table: no two (distinct)
live subnets overlap — neither contains the other's network address. -/
def GoodTable (t : List Subnet) : Prop :=
  t.Pairwise (fun a b => overlaps a b = false)

/-! Concrete addresses used by the reference tests. -/

/-- 10.2.3.0 as a 32-bit integer. -/
def a10_2_3_0 : Nat := 167904000

/-- 10.2.3.4 as a 32-bit integer. -/
def a10_2_3_4 : Nat := 167904004

/-- 10.9.3.4 as a 32-bit integer. -/
def a10_9_3_4 : Nat := 168362756

/-! ### Basic facts about the CIDR arithmetic -/

theorem hostSize_pos (s : Subnet) : 0 < hostSize s :=
  pow_pos (by norm_num) _

theorem containsIP_networkAddress_self (s : Subnet) :
    containsIP s (networkAddress s) = true := by
  simp [containsIP, networkAddress, Nat.mul_div_cancel _ (hostSize_pos s)]

theorem overlaps_self (s : Subnet) : overlaps s s = true := by
  simp [overlaps, containsIP_networkAddress_self]

theorem overlaps_comm (a b : Subnet) : overlaps a b = overlaps b a := by
  simp [overlaps, Bool.or_comm]

theorem overlapsAny_eq_false_iff {t : List Subnet} {s : Subnet} :
    overlapsAny t s = false ↔ ∀ x ∈ t, overlaps x s = false := by
  simp [overlapsAny, List.any_eq_false]

theorem overlapsAny_of_mem {t : List Subnet} {s x : Subnet} (hx : x ∈ t)
    (ho : overlaps x s = true) : overlapsAny t s = true := by
  simp only [overlapsAny, List.any_eq_true]
  exact ⟨x, hx, ho⟩

theorem contains_eq_true_iff {l : List Subnet} {a : Subnet} :
    l.contains a = true ↔ a ∈ l := by
  simp

theorem contains_eq_false_iff {l : List Subnet} {a : Subnet} :
    l.contains a = false ↔ a ∉ l := by
  simp

/-- Every element of the /30 enumeration is a /30 in canonical form. -/
theorem mem_iterSlash30 {pool c : Subnet} (h : c ∈ iterSlash30 pool) :
    c.prefixLen = 30 ∧ normalize c = c := by
  simp only [iterSlash30, List.mem_map, List.mem_range] at h
  obtain ⟨i, hi, rfl⟩ := h
  have hple : pool.prefixLen ≤ 30 := by
    by_contra hgt
    rw [capacity, if_neg hgt] at hi
    omega
  have h4 : (4 : Nat) ∣ networkAddress pool + 4 * i := by
    refine Nat.dvd_add ?_ ⟨i, rfl⟩
    have hdvd : (4 : Nat) ∣ hostSize pool := by
      have : (2 : Nat) ^ 2 ∣ 2 ^ (32 - pool.prefixLen) :=
        pow_dvd_pow 2 (by omega)
      simpa [hostSize] using this
    exact Dvd.dvd.mul_left hdvd _
  refine ⟨rfl, ?_⟩
  simp only [normalize, networkAddress, hostSize]
  congr 1
  have : (32 : Nat) - 30 = 2 := by norm_num
  rw [this]
  exact Nat.div_mul_cancel h4

/-- The /30 enumeration is strictly increasing in base address. -/
theorem iterSlash30_sorted (pool : Subnet) :
    (iterSlash30 pool).Pairwise (fun a b => a.addr < b.addr) := by
  unfold iterSlash30
  rw [List.pairwise_map]
  refine (List.pairwise_lt_range _).imp ?_
  intro i j hij
  simpa using by omega

/-- `find?` on a list strictly sorted by address returns the element of
lowest address satisfying the predicate. -/
theorem find?_min_addr {p : Subnet → Bool} {c : Subnet} :
    ∀ {l : List Subnet}, l.Pairwise (fun a b => a.addr < b.addr) →
      l.find? p = some c → ∀ d ∈ l, p d = true → c.addr ≤ d.addr := by
  intro l
  induction l with
  | nil => intro _ h; simp at h
  | cons x xs ih =>
    intro hp hf d hd hpd
    by_cases hx : p x = true
    · rw [List.find?_cons_of_pos _ hx] at hf
      injection hf with hf
      subst hf
      rcases List.mem_cons.mp hd with h | h
      · subst h; exact le_refl _
      · exact le_of_lt ((List.pairwise_cons.mp hp).1 d h)
    · rw [List.find?_cons_of_neg _ hx] at hf
      rcases List.mem_cons.mp hd with h | h
      · subst h; exact absurd hpd hx
      · exact ih (List.pairwise_cons.mp hp).2 hf d h hpd

/-! ### Characterizations of the manager's operations -/

theorem allocateDynamically_ok {m : Manager} {c : Subnet} {m' : Manager}
    (h : AllocateDynamically m = .ok (c, m')) :
    (iterSlash30 m.pool).find? (fun d => !(overlapsAny m.table d)) = some c ∧
    m' = ⟨m.pool, c :: m.table⟩ := by
  unfold AllocateDynamically at h
  cases hf : (iterSlash30 m.pool).find? (fun d => !(overlapsAny m.table d)) with
  | none => rw [hf] at h; exact absurd h (by simp)
  | some d =>
    rw [hf] at h
    injection h with h
    injection h with h1 h2
    subst h1
    exact ⟨rfl, h2.symm⟩

theorem allocateStatically_ok {m : Manager} {s : Subnet} {m' : Manager}
    (h : AllocateStatically m s = .ok m') :
    subnetWithin m.pool (normalize s) = false ∧
    overlapsAny m.table (normalize s) = false ∧
    m' = ⟨m.pool, normalize s :: m.table⟩ := by
  unfold AllocateStatically at h
  by_cases h1 : subnetWithin m.pool (normalize s) = true
  · rw [if_pos h1] at h; exact absurd h (by simp)
  · rw [if_neg h1] at h
    by_cases h2 : overlapsAny m.table (normalize s) = true
    · rw [if_pos h2] at h; exact absurd h (by simp)
    · rw [if_neg h2] at h
      injection h with h
      exact ⟨Bool.not_eq_true _ ▸ h1, Bool.not_eq_true _ ▸ h2, h.symm⟩

theorem recover_ok {m : Manager} {s : Subnet} {m' : Manager}
    (h : Recover m s = .ok m') :
    overlapsAny m.table (normalize s) = false ∧
    m' = ⟨m.pool, normalize s :: m.table⟩ := by
  unfold Recover at h
  by_cases h1 : overlapsAny m.table (normalize s) = true
  · rw [if_pos h1] at h; exact absurd h (by simp)
  · rw [if_neg h1] at h
    injection h with h
    exact ⟨Bool.not_eq_true _ ▸ h1, h.symm⟩

theorem release_ok {m : Manager} {s : Subnet} {m' : Manager}
    (h : Release m s = .ok m') :
    m.table.contains (normalize s) = true ∧
    m' = ⟨m.pool, m.table.erase (normalize s)⟩ := by
  unfold Release at h
  by_cases h1 : m.table.contains (normalize s) = true
  · rw [if_pos h1] at h
    injection h with h
    exact ⟨h1, h.symm⟩
  · rw [if_neg h1] at h; exact absurd h (by simp)

/-! ### The non-overlap invariant is preserved by every operation -/

theorem goodTable_insert {t : List Subnet} {s : Subnet} (hg : GoodTable t)
    (hs : overlapsAny t s = false) : GoodTable (s :: t) := by
  refine List.pairwise_cons.mpr ⟨?_, hg⟩
  intro b hb
  rw [overlaps_comm]
  exact overlapsAny_eq_false_iff.mp hs b hb

theorem goodTable_step {m : Manager} (hg : GoodTable m.table) (op : Op) :
    GoodTable ((step m op).table) := by
  cases op with
  | allocDyn =>
    simp only [step]
    cases h : AllocateDynamically m with
    | error e => exact hg
    | ok p =>
      obtain ⟨c, m'⟩ := p
      obtain ⟨hf, rfl⟩ := allocateDynamically_ok h
      have hfree := List.find?_some hf
      rw [Bool.not_eq_true'] at hfree
      exact goodTable_insert hg hfree
  | allocStatic s =>
    simp only [step]
    cases h : AllocateStatically m s with
    | error e => exact hg
    | ok m' =>
      obtain ⟨-, hfree, rfl⟩ := allocateStatically_ok h
      exact goodTable_insert hg hfree
  | recoverOp s =>
    simp only [step]
    cases h : Recover m s with
    | error e => exact hg
    | ok m' =>
      obtain ⟨hfree, rfl⟩ := recover_ok h
      exact goodTable_insert hg hfree
  | releaseOp s =>
    simp only [step]
    cases h : Release m s with
    | error e => exact hg
    | ok m' =>
      obtain ⟨-, rfl⟩ := release_ok h
      exact List.Pairwise.sublist (List.erase_sublist _ _) hg

theorem goodTable_runOps (pool : Subnet) (ops : List Op) :
    GoodTable ((runOps (New pool) ops).table) := by
  have main : ∀ (ops : List Op) (m : Manager),
      GoodTable m.table → GoodTable ((runOps m ops).table) := by
    intro ops
    induction ops with
    | nil => intro m hm; exact hm
    | cons op rest ih =>
      intro m hm
      exact ih _ (goodTable_step hm op)
  exact main ops (New pool) (by simp [New, GoodTable])

theorem goodTable_nodup {t : List Subnet} (h : GoodTable t) : t.Nodup := by
  refine h.imp ?_
  intro a b hab hEq
  subst hEq
  rw [overlaps_self] at hab
  cases hab

/-! ### The pool is never mutated -/

theorem step_pool (m : Manager) (op : Op) : (step m op).pool = m.pool := by
  cases op with
  | allocDyn =>
    simp only [step]
    cases h : AllocateDynamically m with
    | error e => rfl
    | ok p =>
      obtain ⟨c, m'⟩ := p
      obtain ⟨-, rfl⟩ := allocateDynamically_ok h
      rfl
  | allocStatic s =>
    simp only [step]
    cases h : AllocateStatically m s with
    | error e => rfl
    | ok m' =>
      obtain ⟨-, -, rfl⟩ := allocateStatically_ok h
      rfl
  | recoverOp s =>
    simp only [step]
    cases h : Recover m s with
    | error e => rfl
    | ok m' =>
      obtain ⟨-, rfl⟩ := recover_ok h
      rfl
  | releaseOp s =>
    simp only [step]
    cases h : Release m s with
    | error e => rfl
    | ok m' =>
      obtain ⟨-, rfl⟩ := release_ok h
      rfl

theorem runOps_pool (m : Manager) (ops : List Op) : (runOps m ops).pool = m.pool := by
  induction ops generalizing m with
  | nil => rfl
  | cons op rest ih =>
    show (runOps (step m op) rest).pool = m.pool
    rw [ih, step_pool]

/-! ### The claims -/

/-- C1: Non-overlap is an invariant of every reachable allocator state: for
any sequence of allocate, release, and recover operations, no two distinct
subnets simultaneously present in the allocation table overlap (neither
contains the other's network address); an allocate whose subnet would
overlap any live subnet fails with `ErrAlreadyAllocated` instead of changing
the table; in particular, a second static allocation of an
already-allocated subnet (`10.9.3.4/30` against pool `10.2.3.0/29`) fails
with `ErrAlreadyAllocated`. -/
theorem C1_nonoverlap_invariant :
    (∀ (pool : Subnet) (ops : List Op),
        GoodTable ((runOps (New pool) ops).table)) ∧
    (∀ (m : Manager) (s : Subnet), overlapsAny m.table (normalize s) = true →
        AllocateStatically m s = .error .ErrAlreadyAllocated ∧
        step m (.allocStatic s) = m) ∧
    AllocateStatically (runOps (New ⟨a10_2_3_0, 29⟩) [.allocStatic ⟨a10_9_3_4, 30⟩])
        ⟨a10_9_3_4, 30⟩ = .error .ErrAlreadyAllocated := by
  refine ⟨goodTable_runOps, ?_, by rfl⟩
  intro m s hov
  have herr : AllocateStatically m s = .error .ErrAlreadyAllocated := by
    unfold AllocateStatically
    by_cases hw : subnetWithin m.pool (normalize s) = true
    · rw [if_pos hw]
    · rw [if_neg hw, if_pos hov]
  refine ⟨herr, ?_⟩
  simp only [step, herr]

/-- Witness for C1 at a concrete state: the table holding `10.9.3.4/30`
overlaps a fresh `10.9.3.4/30` request, and the allocation fails. -/
theorem C1_nonoverlap_invariant_witness :
    overlapsAny (Manager.table ⟨⟨a10_2_3_0, 29⟩, [⟨a10_9_3_4, 30⟩]⟩)
        (normalize ⟨a10_9_3_4, 30⟩) = true ∧
    AllocateStatically ⟨⟨a10_2_3_0, 29⟩, [⟨a10_9_3_4, 30⟩]⟩ ⟨a10_9_3_4, 30⟩ =
      .error .ErrAlreadyAllocated :=
  ⟨by rfl, (C1_nonoverlap_invariant.2.1 ⟨⟨a10_2_3_0, 29⟩, [⟨a10_9_3_4, 30⟩]⟩
      ⟨a10_9_3_4, 30⟩ (by rfl)).1⟩

/-- C2: Dynamic subnet selection is deterministic and ordered: a successful
`allocate(Dynamic, Dynamic)` returns a grid /30 of the pool that does not
conflict with any live subnet and has the lowest base address among all
such free grid /30s; concretely, on pool `10.2.3.0/30` the first dynamic
allocation returns `10.2.3.0/30`, and on pool `10.2.3.0/29` the second
dynamic allocation returns `10.2.3.4/30`. -/
theorem C2_dynamic_lowest :
    (∀ (m : Manager) (c : Subnet) (m' : Manager),
        AllocateDynamically m = .ok (c, m') →
        c ∈ iterSlash30 m.pool ∧ overlapsAny m.table c = false ∧
        ∀ d ∈ iterSlash30 m.pool, overlapsAny m.table d = false →
          c.addr ≤ d.addr) ∧
    AllocateDynamically (New ⟨a10_2_3_0, 30⟩) =
      .ok (⟨a10_2_3_0, 30⟩, ⟨⟨a10_2_3_0, 30⟩, [⟨a10_2_3_0, 30⟩]⟩) ∧
    AllocateDynamically (step (New ⟨a10_2_3_0, 29⟩) .allocDyn) =
      .ok (⟨a10_2_3_4, 30⟩,
           ⟨⟨a10_2_3_0, 29⟩, [⟨a10_2_3_4, 30⟩, ⟨a10_2_3_0, 30⟩]⟩) := by
  refine ⟨?_, by rfl, by rfl⟩
  intro m c m' h
  obtain ⟨hf, -⟩ := allocateDynamically_ok h
  have hmem := List.mem_of_find?_eq_some hf
  have hpc := List.find?_some hf
  rw [Bool.not_eq_true'] at hpc
  refine ⟨hmem, hpc, ?_⟩
  intro d hd hfree
  exact find?_min_addr (iterSlash30_sorted m.pool) hf d hd (by simp [hfree])

/-- Witness for C2: the first dynamic allocation on pool `10.2.3.0/30`
returns the lowest free grid /30. -/
theorem C2_dynamic_lowest_witness :
    (⟨a10_2_3_0, 30⟩ : Subnet) ∈ iterSlash30 (New ⟨a10_2_3_0, 30⟩).pool ∧
    overlapsAny (New ⟨a10_2_3_0, 30⟩).table ⟨a10_2_3_0, 30⟩ = false ∧
    ∀ d ∈ iterSlash30 (New ⟨a10_2_3_0, 30⟩).pool,
      overlapsAny (New ⟨a10_2_3_0, 30⟩).table d = false →
        Subnet.addr ⟨a10_2_3_0, 30⟩ ≤ d.addr :=
  C2_dynamic_lowest.1 (New ⟨a10_2_3_0, 30⟩) ⟨a10_2_3_0, 30⟩
    ⟨⟨a10_2_3_0, 30⟩, [⟨a10_2_3_0, 30⟩]⟩ (by rfl)

/-- C3: Capacity is a pure, stable function of the dynamic pool: for prefix
length `p` it is `2^(30 - p)` when `p ≤ 30` and `0` otherwise (`0` for a
/32 pool, `2` for a /29 pool), and it is unchanged by any sequence of
allocate, release, and recover operations. -/
theorem C3_capacity_pure :
    (∀ pool : Subnet, capacity pool =
        if pool.prefixLen ≤ 30 then 2 ^ (30 - pool.prefixLen) else 0) ∧
    (∀ (pool : Subnet) (ops : List Op),
        Capacity (runOps (New pool) ops) = Capacity (New pool)) ∧
    Capacity (New ⟨a10_2_3_0, 32⟩) = 0 ∧
    Capacity (New ⟨a10_2_3_0, 29⟩) = 2 := by
  refine ⟨fun _ => rfl, ?_, rfl, rfl⟩
  intro pool ops
  simp only [Capacity, runOps_pool]

/-- C4: Static-inside-pool rejection is up-front: any static allocation
whose subnet is wholly contained in the dynamic pool fails with
`ErrAlreadyAllocated`, in any state — in particular
`AllocateStatically(10.2.3.4/30)` against pool `10.2.3.0/29` on a fresh
manager. -/
theorem C4_static_inside_pool :
    (∀ (m : Manager) (s : Subnet), subnetWithin m.pool (normalize s) = true →
        AllocateStatically m s = .error .ErrAlreadyAllocated) ∧
    AllocateStatically (New ⟨a10_2_3_0, 29⟩) ⟨a10_2_3_4, 30⟩ =
      .error .ErrAlreadyAllocated := by
  refine ⟨?_, by rfl⟩
  intro m s h
  unfold AllocateStatically
  rw [if_pos h]

/-- Witness for C4: `10.2.3.4/30` lies wholly within the pool
`10.2.3.0/29`, and its static allocation on a fresh manager fails. -/
theorem C4_static_inside_pool_witness :
    subnetWithin (New ⟨a10_2_3_0, 29⟩).pool (normalize ⟨a10_2_3_4, 30⟩) = true ∧
    AllocateStatically (New ⟨a10_2_3_0, 29⟩) ⟨a10_2_3_4, 30⟩ =
      .error .ErrAlreadyAllocated :=
  ⟨by rfl, C4_static_inside_pool.1 (New ⟨a10_2_3_0, 29⟩) ⟨a10_2_3_4, 30⟩ (by rfl)⟩

/-- C5: Dynamic allocation fails with `ErrInsufficientSubnets` exactly when
no free /30 remains; a pool of prefix length at least 31 always fails;
concretely, on pool `10.2.3.0/31` the first dynamic allocation fails and on
pool `10.2.3.0/30` the second one fails. -/
theorem C5_insufficient_iff :
    (∀ m : Manager,
        AllocateDynamically m = .error .ErrInsufficientSubnets ↔
        ∀ c ∈ iterSlash30 m.pool, overlapsAny m.table c = true) ∧
    (∀ m : Manager, 31 ≤ m.pool.prefixLen →
        AllocateDynamically m = .error .ErrInsufficientSubnets) ∧
    AllocateDynamically (New ⟨a10_2_3_0, 31⟩) = .error .ErrInsufficientSubnets ∧
    AllocateDynamically (step (New ⟨a10_2_3_0, 30⟩) .allocDyn) =
      .error .ErrInsufficientSubnets := by
  have main : ∀ m : Manager,
      AllocateDynamically m = .error .ErrInsufficientSubnets ↔
      ∀ c ∈ iterSlash30 m.pool, overlapsAny m.table c = true := by
    intro m
    unfold AllocateDynamically
    cases hf : (iterSlash30 m.pool).find? (fun c => !(overlapsAny m.table c)) with
    | none =>
      simp only [iff_true_intro rfl, true_iff]
      intro c hc
      have := List.find?_eq_none.mp hf c hc
      simpa using this
    | some c =>
      constructor
      · intro h; exact absurd h (by simp)
      · intro hall
        have hpc := List.find?_some hf
        have hc := List.mem_of_find?_eq_some hf
        rw [Bool.not_eq_true'] at hpc
        rw [hall c hc] at hpc
        cases hpc
  refine ⟨main, ?_, by rfl, by rfl⟩
  intro m h31
  refine (main m).mpr ?_
  intro c hc
  have hcap : capacity m.pool = 0 := by
    rw [capacity, if_neg (by omega)]
  rw [iterSlash30, hcap, List.range_zero, List.map_nil] at hc
  cases hc

/-- Witness for C5 at a fully-occupied pool: on `10.2.3.0/30` with its only
/30 live, every grid /30 conflicts and allocation fails. -/
theorem C5_insufficient_iff_witness :
    AllocateDynamically (Manager.mk ⟨a10_2_3_0, 30⟩ [⟨a10_2_3_0, 30⟩]) =
      .error .ErrInsufficientSubnets ∧
    AllocateDynamically (Manager.mk ⟨a10_2_3_0, 31⟩ []) =
      .error .ErrInsufficientSubnets :=
  ⟨(C5_insufficient_iff.1 (Manager.mk ⟨a10_2_3_0, 30⟩ [⟨a10_2_3_0, 30⟩])).mpr
      (by decide),
   C5_insufficient_iff.2.1 (Manager.mk ⟨a10_2_3_0, 31⟩ []) (by norm_num)⟩

/-- C6: A recovered subnet inside the pool is excluded from dynamic
enumeration: a successful `Recover` puts the subnet into the table, and a
successful dynamic allocation never returns any subnet currently in the
table; concretely, on pool `10.2.3.0/29`, after `Recover(10.2.3.4/30)` the
first dynamic allocation returns `10.2.3.0/30` and the second fails with
`ErrInsufficientSubnets`. -/
theorem C6_recovered_excluded :
    (∀ (m : Manager) (s : Subnet) (m' : Manager), Recover m s = .ok m' →
        normalize s ∈ m'.table) ∧
    (∀ (m : Manager) (c : Subnet) (m' : Manager),
        AllocateDynamically m = .ok (c, m') → ∀ t ∈ m.table, c ≠ t) ∧
    (Recover (New ⟨a10_2_3_0, 29⟩) ⟨a10_2_3_4, 30⟩ =
        .ok ⟨⟨a10_2_3_0, 29⟩, [⟨a10_2_3_4, 30⟩]⟩ ∧
      AllocateDynamically ⟨⟨a10_2_3_0, 29⟩, [⟨a10_2_3_4, 30⟩]⟩ =
        .ok (⟨a10_2_3_0, 30⟩,
             ⟨⟨a10_2_3_0, 29⟩, [⟨a10_2_3_0, 30⟩, ⟨a10_2_3_4, 30⟩]⟩) ∧
      AllocateDynamically ⟨⟨a10_2_3_0, 29⟩, [⟨a10_2_3_0, 30⟩, ⟨a10_2_3_4, 30⟩]⟩ =
        .error .ErrInsufficientSubnets) := by
  refine ⟨?_, ?_, by rfl, by rfl, by rfl⟩
  · intro m s m' h
    obtain ⟨-, rfl⟩ := recover_ok h
    exact List.mem_cons_self _ _
  · intro m c m' h t ht hct
    obtain ⟨hf, -⟩ := allocateDynamically_ok h
    have hpc := List.find?_some hf
    rw [Bool.not_eq_true'] at hpc
    subst hct
    have hcontra := overlapsAny_of_mem ht (overlaps_self _)
    rw [hpc] at hcontra
    cases hcontra

/-- Witness for C6: after recovering `10.2.3.4/30` on pool `10.2.3.0/29`,
the recovered subnet is live and the dynamic allocation that follows does
not return it. -/
theorem C6_recovered_excluded_witness :
    normalize ⟨a10_2_3_4, 30⟩ ∈
      Manager.table ⟨⟨a10_2_3_0, 29⟩, [⟨a10_2_3_4, 30⟩]⟩ ∧
    (⟨a10_2_3_0, 30⟩ : Subnet) ≠ (⟨a10_2_3_4, 30⟩ : Subnet) :=
  ⟨C6_recovered_excluded.1 (New ⟨a10_2_3_0, 29⟩) ⟨a10_2_3_4, 30⟩
      ⟨⟨a10_2_3_0, 29⟩, [⟨a10_2_3_4, 30⟩]⟩ (by rfl),
   C6_recovered_excluded.2.1 ⟨⟨a10_2_3_0, 29⟩, [⟨a10_2_3_4, 30⟩]⟩
      ⟨a10_2_3_0, 30⟩ ⟨⟨a10_2_3_0, 29⟩, [⟨a10_2_3_0, 30⟩, ⟨a10_2_3_4, 30⟩]⟩
      (by rfl) ⟨a10_2_3_4, 30⟩ (List.mem_cons_self _ _)⟩

/-- C7: Recover is not idempotent and occupies the subnet: after a
successful `Recover` of a subnet, a second `Recover` of the same subnet
fails with `ErrAlreadyAllocated`, and a static allocation of the recovered
subnet fails with `ErrAlreadyAllocated`; concrete instances both inside
(`10.2.3.4/30`) and outside (`10.9.3.4/30`) the pool `10.2.3.0/29`. -/
theorem C7_recover_not_idempotent :
    (∀ (m : Manager) (s : Subnet) (m' : Manager), Recover m s = .ok m' →
        Recover m' s = .error .ErrAlreadyAllocated ∧
        AllocateStatically m' s = .error .ErrAlreadyAllocated) ∧
    (Recover (New ⟨a10_2_3_0, 29⟩) ⟨a10_2_3_4, 30⟩ =
        .ok ⟨⟨a10_2_3_0, 29⟩, [⟨a10_2_3_4, 30⟩]⟩ ∧
      Recover ⟨⟨a10_2_3_0, 29⟩, [⟨a10_2_3_4, 30⟩]⟩ ⟨a10_2_3_4, 30⟩ =
        .error .ErrAlreadyAllocated ∧
      AllocateStatically ⟨⟨a10_2_3_0, 29⟩, [⟨a10_2_3_4, 30⟩]⟩ ⟨a10_2_3_4, 30⟩ =
        .error .ErrAlreadyAllocated) ∧
    (Recover (New ⟨a10_2_3_0, 29⟩) ⟨a10_9_3_4, 30⟩ =
        .ok ⟨⟨a10_2_3_0, 29⟩, [⟨a10_9_3_4, 30⟩]⟩ ∧
      Recover ⟨⟨a10_2_3_0, 29⟩, [⟨a10_9_3_4, 30⟩]⟩ ⟨a10_9_3_4, 30⟩ =
        .error .ErrAlreadyAllocated ∧
      AllocateStatically ⟨⟨a10_2_3_0, 29⟩, [⟨a10_9_3_4, 30⟩]⟩ ⟨a10_9_3_4, 30⟩ =
        .error .ErrAlreadyAllocated) := by
  refine ⟨?_, ⟨by rfl, by rfl, by rfl⟩, ⟨by rfl, by rfl, by rfl⟩⟩
  intro m s m' h
  obtain ⟨-, rfl⟩ := recover_ok h
  have hov : overlapsAny (normalize s :: m.table) (normalize s) = true :=
    overlapsAny_of_mem (List.mem_cons_self _ _) (overlaps_self _)
  constructor
  · unfold Recover
    rw [if_pos hov]
  · unfold AllocateStatically
    by_cases hw : subnetWithin m.pool (normalize s) = true
    · rw [if_pos hw]
    · rw [if_neg hw, if_pos hov]

/-- Witness for C7: recovering `10.9.3.4/30` on a fresh manager over pool
`10.2.3.0/29`, then both a second recovery and a static allocation fail. -/
theorem C7_recover_not_idempotent_witness :
    Recover ⟨⟨a10_2_3_0, 29⟩, [⟨a10_9_3_4, 30⟩]⟩ ⟨a10_9_3_4, 30⟩ =
      .error .ErrAlreadyAllocated ∧
    AllocateStatically ⟨⟨a10_2_3_0, 29⟩, [⟨a10_9_3_4, 30⟩]⟩ ⟨a10_9_3_4, 30⟩ =
      .error .ErrAlreadyAllocated :=
  C7_recover_not_idempotent.1 (New ⟨a10_2_3_0, 29⟩) ⟨a10_9_3_4, 30⟩
    ⟨⟨a10_2_3_0, 29⟩, [⟨a10_9_3_4, 30⟩]⟩ (by rfl)

/-- C8: Release of anything not currently allocated fails with
`ErrReleasedUnallocatedNetwork` and leaves the state unchanged; on any
reachable state, releasing the same allocation twice fails on the second
call; release on a fresh manager fails. -/
theorem C8_release_unallocated :
    (∀ (m : Manager) (s : Subnet), m.table.contains (normalize s) = false →
        Release m s = .error .ErrReleasedUnallocatedNetwork ∧
        step m (.releaseOp s) = m) ∧
    (∀ (pool : Subnet) (ops : List Op) (s : Subnet) (m' : Manager),
        Release (runOps (New pool) ops) s = .ok m' →
        Release m' s = .error .ErrReleasedUnallocatedNetwork) ∧
    Release (New ⟨a10_2_3_0, 30⟩) ⟨a10_2_3_0, 30⟩ =
      .error .ErrReleasedUnallocatedNetwork := by
  refine ⟨?_, ?_, by rfl⟩
  · intro m s h
    have herr : Release m s = .error .ErrReleasedUnallocatedNetwork := by
      unfold Release
      rw [if_neg (by rw [h]; simp)]
    exact ⟨herr, by simp only [step, herr]⟩
  · intro pool ops s m' h
    obtain ⟨hc, rfl⟩ := release_ok h
    have hnd : (runOps (New pool) ops).table.Nodup :=
      goodTable_nodup (goodTable_runOps pool ops)
    have hnm : normalize s ∉ (runOps (New pool) ops).table.erase (normalize s) := by
      intro hmem
      exact ((hnd.mem_erase_iff).mp hmem).1 rfl
    have hcf : ((runOps (New pool) ops).table.erase (normalize s)).contains
        (normalize s) = false := contains_eq_false_iff.mpr hnm
    unfold Release
    rw [if_neg (by rw [hcf]; simp)]

/-- Witness for C8: on a one-entry manager, release succeeds once and fails
the second time. -/
theorem C8_release_unallocated_witness :
    (Manager.table (New ⟨a10_2_3_0, 30⟩)).contains
        (normalize ⟨a10_2_3_0, 30⟩) = false ∧
    Release (New ⟨a10_2_3_0, 30⟩) ⟨a10_2_3_0, 30⟩ =
      .error .ErrReleasedUnallocatedNetwork ∧
    Release (runOps (New ⟨a10_2_3_0, 30⟩) [.allocDyn]) ⟨a10_2_3_0, 30⟩ =
      .ok (New ⟨a10_2_3_0, 30⟩) ∧
    Release (New ⟨a10_2_3_0, 30⟩) ⟨a10_2_3_0, 30⟩ =
      .error .ErrReleasedUnallocatedNetwork :=
  ⟨by rfl,
   (C8_release_unallocated.1 (New ⟨a10_2_3_0, 30⟩) ⟨a10_2_3_0, 30⟩ (by rfl)).1,
   by rfl,
   C8_release_unallocated.2.1 ⟨a10_2_3_0, 30⟩ [.allocDyn] ⟨a10_2_3_0, 30⟩
     (New ⟨a10_2_3_0, 30⟩) (by rfl)⟩

/-- C9: Release restores allocatability (round trip): a successful release
of a just-allocated subnet restores the prior state exactly, so an
equivalent allocate succeeds and returns the same subnet; concretely, on
pool `10.2.3.0/30`, allocate-Dynamic → release → allocate-Dynamic returns
`10.2.3.0/30` again, and a static subnet can be statically re-allocated
after its release. -/
theorem C9_release_roundtrip :
    (∀ (m : Manager) (s : Subnet) (m' : Manager),
        AllocateStatically m s = .ok m' → Release m' s = .ok m) ∧
    (∀ (m : Manager) (c : Subnet) (m' : Manager),
        AllocateDynamically m = .ok (c, m') → Release m' c = .ok m) ∧
    (runOps (New ⟨a10_2_3_0, 30⟩) [.allocDyn, .releaseOp ⟨a10_2_3_0, 30⟩] =
        New ⟨a10_2_3_0, 30⟩ ∧
      AllocateDynamically (runOps (New ⟨a10_2_3_0, 30⟩)
          [.allocDyn, .releaseOp ⟨a10_2_3_0, 30⟩]) =
        .ok (⟨a10_2_3_0, 30⟩, ⟨⟨a10_2_3_0, 30⟩, [⟨a10_2_3_0, 30⟩]⟩)) ∧
    (runOps (New ⟨a10_2_3_0, 29⟩)
        [.allocStatic ⟨a10_9_3_4, 30⟩, .releaseOp ⟨a10_9_3_4, 30⟩] =
        New ⟨a10_2_3_0, 29⟩ ∧
      AllocateStatically (runOps (New ⟨a10_2_3_0, 29⟩)
          [.allocStatic ⟨a10_9_3_4, 30⟩, .releaseOp ⟨a10_9_3_4, 30⟩])
          ⟨a10_9_3_4, 30⟩ =
        .ok ⟨⟨a10_2_3_0, 29⟩, [⟨a10_9_3_4, 30⟩]⟩) := by
  refine ⟨?_, ?_, ⟨by rfl, by rfl⟩, ⟨by rfl, by rfl⟩⟩
  · intro m s m' h
    obtain ⟨-, -, rfl⟩ := allocateStatically_ok h
    unfold Release
    rw [if_pos (by simp), List.erase_cons_head]
  · intro m c m' h
    obtain ⟨hf, rfl⟩ := allocateDynamically_ok h
    have hnorm := (mem_iterSlash30 (List.mem_of_find?_eq_some hf)).2
    unfold Release
    rw [hnorm, if_pos (by simp), List.erase_cons_head]

/-- Witness for C9: the dynamic and static allocations above round-trip
through `Release` back to the initial state. -/
theorem C9_release_roundtrip_witness :
    Release ⟨⟨a10_2_3_0, 30⟩, [⟨a10_2_3_0, 30⟩]⟩ ⟨a10_2_3_0, 30⟩ =
      .ok (New ⟨a10_2_3_0, 30⟩) ∧
    Release ⟨⟨a10_2_3_0, 29⟩, [⟨a10_9_3_4, 30⟩]⟩ ⟨a10_9_3_4, 30⟩ =
      .ok (New ⟨a10_2_3_0, 29⟩) :=
  ⟨C9_release_roundtrip.2.1 (New ⟨a10_2_3_0, 30⟩) ⟨a10_2_3_0, 30⟩
      ⟨⟨a10_2_3_0, 30⟩, [⟨a10_2_3_0, 30⟩]⟩ (by rfl),
   C9_release_roundtrip.1 (New ⟨a10_2_3_0, 29⟩) ⟨a10_9_3_4, 30⟩
      ⟨⟨a10_2_3_0, 29⟩, [⟨a10_9_3_4, 30⟩]⟩ (by rfl)⟩

/-- C10: Concurrent dynamic allocations are distinct. All manager
operations execute atomically under the manager's single mutex (spec.md
§5), so a parallel execution of two `allocate(Dynamic, Dynamic)` calls is
equivalent to running them in one of the two sequential orders; whenever
both calls of such a serialization succeed, the returned subnets have
distinct network addresses. -/
theorem C10_concurrent_distinct :
    ∀ (m : Manager) (a b : Subnet) (m₁ m₂ : Manager),
      AllocateDynamically m = .ok (a, m₁) →
      AllocateDynamically m₁ = .ok (b, m₂) →
      networkAddress a ≠ networkAddress b := by
  intro m a b m₁ m₂ h1 h2 hEq
  obtain ⟨hf1, rfl⟩ := allocateDynamically_ok h1
  obtain ⟨hf2, -⟩ := allocateDynamically_ok h2
  have ha := mem_iterSlash30 (List.mem_of_find?_eq_some hf1)
  have hb := mem_iterSlash30 (List.mem_of_find?_eq_some hf2)
  have haddr_a : networkAddress a = a.addr := congrArg Subnet.addr ha.2
  have haddr_b : networkAddress b = b.addr := congrArg Subnet.addr hb.2
  have hab : a = b := by
    have haa : a.addr = b.addr := by rw [← haddr_a, ← haddr_b, hEq]
    have hpfx : a.prefixLen = b.prefixLen := by rw [ha.1, hb.1]
    cases a; cases b
    simp only at haa hpfx
    rw [haa, hpfx]
  have hfree := List.find?_some hf2
  rw [Bool.not_eq_true'] at hfree
  have hfree2 : overlapsAny (a :: m.table) b = false := hfree
  have hcontra : overlapsAny (a :: m.table) b = true :=
    overlapsAny_of_mem (List.mem_cons_self _ _)
      (by rw [← hab]; exact overlaps_self a)
  rw [hfree2] at hcontra
  cases hcontra

/-- Witness for C10: the two successive dynamic allocations on pool
`10.2.3.0/29` return subnets with distinct network addresses. -/
theorem C10_concurrent_distinct_witness :
    networkAddress ⟨a10_2_3_0, 30⟩ ≠ networkAddress ⟨a10_2_3_4, 30⟩ :=
  C10_concurrent_distinct (New ⟨a10_2_3_0, 29⟩) ⟨a10_2_3_0, 30⟩
    ⟨a10_2_3_4, 30⟩ ⟨⟨a10_2_3_0, 29⟩, [⟨a10_2_3_0, 30⟩]⟩
    ⟨⟨a10_2_3_0, 29⟩, [⟨a10_2_3_4, 30⟩, ⟨a10_2_3_0, 30⟩]⟩ (by rfl) (by rfl)

end Subnets
